import Mathlib

/-!
Shallow embedding of `main.go` of jelmer/withings-exporter.

The program is a small Withings-to-Prometheus exporter. Its effectful parts
(environment lookup, console input, outbound HTTP, JSON unmarshalling) are
embedded by passing their outcomes explicitly:

* `Env` holds the three environment variables `main` reads (`os.Getenv`
  returns the empty string for an unset variable, so an unset variable is
  the empty string here).
* An outbound HTTP exchange is an input of type `Option (ParseResult α)`:
  `none` models `client.Do` returning an error together with a nil
  response (the usual network failure mode); `some pr` models a received
  body, where `pr : ParseResult α` says whether `json.Unmarshal` of that
  body into the target struct succeeded (`ok` with the parsed struct) or
  failed (`fail`, which leaves the target at its zero value, as
  `json.Unmarshal`'s error is discarded by the program).
* A Go panic (nil-pointer dereference at a deferred `res.Body.Close()`
  when `res` is nil, or an index-out-of-range on an empty slice) is
  modelled as the `none` / `panicked` outcome: execution does not continue.
* Go `float64` measurement values are modelled as `ℚ`; the only arithmetic
  performed on them is division by `1000`, and every concrete value used
  here is exact in binary floating point as well.
-/

/-- The struct `RequestToken.Body` of `main.go` (anonymous in Go). -/
structure RequestTokenBody where
  AccessToken : String
  RefreshToken : String
  Scope : String
  ExpiresIn : String
  TokenType : String
deriving DecidableEq, Repr

/-- The struct `RequestToken` of `main.go`: the token-endpoint response. -/
structure RequestToken where
  Status : Int
  Error : String
  Body : RequestTokenBody
deriving DecidableEq, Repr

/-- The zero value a Go `RequestToken{}` literal produces (and that a failed
`json.Unmarshal` leaves in place). -/
def RequestToken.zero : RequestToken :=
  { Status := 0, Error := "",
    Body := { AccessToken := "", RefreshToken := "", Scope := "",
              ExpiresIn := "", TokenType := "" } }

/-- One element of the anonymous `Measures` slice inside a measure group:
fields `Value float64` (modelled as `ℚ`) and `Type int` (renamed `MType`,
since `Type` is reserved in Lean). -/
structure MeasureItem where
  Value : ℚ
  MType : Int
deriving DecidableEq, Repr

/-- One element of the `MeasureGroups` slice of `main.go`'s `Measures`. -/
structure MeasureGroup where
  Date : Int
  Created : Int
  Measures : List MeasureItem
deriving DecidableEq, Repr

/-- The struct `Measures.Body` of `main.go` (anonymous in Go). -/
structure MeasuresBody where
  MeasureGroups : List MeasureGroup
deriving DecidableEq, Repr

/-- The struct `Measures` of `main.go`: the measurement-endpoint response. -/
structure Measures where
  Status : Int
  Body : MeasuresBody
deriving DecidableEq, Repr

/-- The zero value a Go `Measures{}` literal produces (and that a failed
`json.Unmarshal` leaves in place): in particular `MeasureGroups` is empty. -/
def Measures.zero : Measures :=
  { Status := 0, Body := { MeasureGroups := [] } }

/-- Outcome of `json.Unmarshal` into a target of type `α`: `ok` carries the
parsed struct, `fail` stands for a decode error (discarded by the program,
leaving the target at its zero value). -/
inductive ParseResult (α : Type) where
  | ok (val : α)
  | fail
deriving DecidableEq, Repr

/-- The struct a failed or successful unmarshal of a `RequestToken` leaves
behind (`main.go` line 103-104: `RequestToken{}` then `json.Unmarshal`). -/
def parsedRequestTokenOf : ParseResult RequestToken → RequestToken
  | .ok t => t
  | .fail => RequestToken.zero

/-- The struct a failed or successful unmarshal of a `Measures` leaves
behind (`main.go` line 131-132: `Measures{}` then `json.Unmarshal`). -/
def parsedMeasuresOf : ParseResult Measures → Measures
  | .ok m => m
  | .fail => Measures.zero

/-- The environment variables `main` reads. `os.Getenv` returns `""` for an
unset variable, so unset and empty coincide, as in the Go program. -/
structure Env where
  WITHINGS_API_ACCESS_TOKEN : String
  WITHINGS_APP_CLIENT_ID : String
  WITHINGS_APP_CLIENT_SECRET : String
deriving DecidableEq, Repr

/-- The constant `withingsAPIBaseURL` of `main` (line 46). -/
def withingsAPIBaseURL : String := "https://wbsapi.withings.net"

/-- Result of `oauthFlow` (lines 80-109). `printedError` records whether
`fmt.Println(err)` ran for the `client.Do` error (line 96-98); note the
`json.Unmarshal` error is discarded without printing (line 104). `outcome`
is `some (authCode, accessToken)` for the normal return (line 108) and
`none` when the function panics: on a `client.Do` network error `res` is
nil and the deferred `res.Body.Close()` (line 100) dereferences it. -/
structure OauthResult where
  printedError : Bool
  outcome : Option (String × String)
deriving DecidableEq, Repr

/-- `oauthFlow` of `main.go` (lines 80-109). `authCode` is the line read
from the console (line 84); `net` is the token-endpoint exchange as
described in the file header. The URL construction and the printed prompts
carry no data into the result and are omitted. -/
def oauthFlow (authCode : String) (net : Option (ParseResult RequestToken)) :
    OauthResult :=
  match net with
  | none =>
    -- client.Do error: printed (line 97), then panic at the deferred
    -- res.Body.Close() on the nil response (line 100).
    { printedError := true, outcome := none }
  | some pr =>
    let parsedRequestToken := parsedRequestTokenOf pr
    let accessToken := parsedRequestToken.Body.AccessToken
    { printedError := false, outcome := some (authCode, accessToken) }

/-- An outbound HTTP request as built by `http.NewRequest` plus
`req.Header.Add`. -/
structure HttpRequest where
  method : String
  url : String
  headers : List (String × String)
deriving DecidableEq, Repr

/-- The constant `weightMeasurementAPITypes` of `getWeightMeasurements`
(line 112). -/
def weightMeasurementAPITypes : Nat := 1

/-- The request `getWeightMeasurements` builds (lines 113-121): the
`fmt.Sprintf` of line 113 and the `Authorization` header of line 121. -/
def measureRequest (baseURL accessToken : String) : HttpRequest :=
  { method := "POST",
    url := baseURL ++ ("/measure?action=getmeas&meastypes=" ++
      toString weightMeasurementAPITypes ++ "&category=1&lastupdate=integer"),
    headers := [("Authorization", "Bearer " ++ accessToken)] }

/-- `getWeightMeasurements` of `main.go` (lines 111-135). Returns the
request it issues together with the returned weight; `none` in the second
component is a panic: either the nil-response dereference at the deferred
`res.Body.Close()` (line 128) after a `client.Do` error, or the
index-out-of-range at `MeasureGroups[0]` / `Measures[0]` (line 134) when
the parsed struct holds empty slices. -/
def getWeightMeasurements (baseURL accessToken : String)
    (net : Option (ParseResult Measures)) : HttpRequest × Option ℚ :=
  let req := measureRequest baseURL accessToken
  match net with
  | none => (req, none)
  | some pr =>
    let parsedMeasures := parsedMeasuresOf pr
    match parsedMeasures.Body.MeasureGroups with
    | [] => (req, none)
    | g :: _ =>
      match g.Measures with
      | [] => (req, none)
      | x :: _ => (req, some (x.Value / 1000))

/-- The observable events of a run of `main`, in program order. -/
inductive Event where
  | printSetupMsg
  | tokenRequest
  | measureRequest (r : HttpRequest)
  | gaugeRegister
  | gaugeSet (v : ℚ)
  | serverStart
deriving DecidableEq, Repr

/-- Whether an event is a mutation of the gauge. -/
def isGaugeSetEvent : Event → Bool
  | .gaugeSet _ => true
  | _ => false

/-- Result of a run of `main`: the event trace plus its distinguished
observations. `tokenPassed` is the token handed to `getWeightMeasurements`
(line 69), `gaugeValue` the value the gauge was `Set` to (line 72),
`serverStarted` whether `http.ListenAndServe` was reached (line 77),
`panicked` whether the run died in a Go panic, and `earlyReturn` whether
the credentials check returned early (line 55). -/
structure MainResult where
  oauthInvoked : Bool
  events : List Event
  tokenPassed : Option String
  gaugeValue : Option ℚ
  serverStarted : Bool
  panicked : Bool
  earlyReturn : Bool
deriving DecidableEq, Repr

/-- The tail of `main` from line 62 on, once `accessToken` is settled:
create the gauge, call `getWeightMeasurements`, register and set the
gauge, then serve. A panic inside `getWeightMeasurements` stops the run
after the measure request was issued. -/
def afterToken (oauthInvoked : Bool) (preEvents : List Event)
    (baseURL tok : String) (measNet : Option (ParseResult Measures)) :
    MainResult :=
  match getWeightMeasurements baseURL tok measNet with
  | (req, none) =>
    { oauthInvoked := oauthInvoked,
      events := preEvents ++ [.measureRequest req],
      tokenPassed := some tok, gaugeValue := none,
      serverStarted := false, panicked := true, earlyReturn := false }
  | (req, some w) =>
    { oauthInvoked := oauthInvoked,
      events := preEvents ++
        [.measureRequest req, .gaugeRegister, .gaugeSet w, .serverStart],
      tokenPassed := some tok, gaugeValue := some w,
      serverStarted := true, panicked := false, earlyReturn := false }

/-- `main` of `main.go` (lines 45-78). `authCode` is the console input the
run would read inside `oauthFlow`; `oauthNet` and `measNet` are the two
outbound exchanges. The `tokenRequest` event is the POST to the token
endpoint, issued exactly when `oauthFlow` runs. -/
def mainRun (env : Env) (authCode : String)
    (oauthNet : Option (ParseResult RequestToken))
    (measNet : Option (ParseResult Measures)) : MainResult :=
  if env.WITHINGS_API_ACCESS_TOKEN = "" then
    if env.WITHINGS_APP_CLIENT_ID = "" ∨ env.WITHINGS_APP_CLIENT_SECRET = "" then
      { oauthInvoked := false, events := [.printSetupMsg],
        tokenPassed := none, gaugeValue := none,
        serverStarted := false, panicked := false, earlyReturn := true }
    else
      match (oauthFlow authCode oauthNet).outcome with
      | none =>
        { oauthInvoked := true, events := [.tokenRequest],
          tokenPassed := none, gaugeValue := none,
          serverStarted := false, panicked := true, earlyReturn := false }
      | some (_, tok) =>
        afterToken true [.tokenRequest] withingsAPIBaseURL tok measNet
  else
    afterToken false [] withingsAPIBaseURL env.WITHINGS_API_ACCESS_TOKEN measNet

/-- The first-group-first-measure value a `Measures` struct carries, when
the slices are non-empty: the projection line 134 reads. -/
def firstMeasureValue (m : Measures) : Option ℚ :=
  match m.Body.MeasureGroups with
  | [] => none
  | g :: _ =>
    match g.Measures with
    | [] => none
    | x :: _ => some x.Value

/-- Modelled from the spec: the Prometheus text exposition the
`promhttp.Handler` library code (not part of this repository) serves for a
registry of gauges — one line `name value` per series. -/
def ratRender (q : ℚ) : String :=
  if q.den = 1 then toString q.num
  else toString q.num ++ "/" ++ toString q.den

/-- Modelled from the spec: render a gauge registry in text exposition
format, one `name value` line per registered series. -/
def renderMetrics (registry : List (String × ℚ)) : String :=
  String.join (registry.map fun nv => nv.1 ++ " " ++ ratRender nv.2 ++ "\n")

/-- The gauge registry of a completed `main` startup: `main` registers the
single gauge `withings_current_weight` (lines 62-72). -/
def registryOf (r : MainResult) : List (String × ℚ) :=
  match r.gaugeValue with
  | some w => [("withings_current_weight", w)]
  | none => []

/-- Modelled from the spec: one step of the serving loop
(`http.ListenAndServe` + `promhttp.Handler`, library code not in this
repository): answer a request for a path from the registry, leaving the
registry unchanged. -/
def serveStep (registry : List (String × ℚ)) (path : String) :
    List (String × ℚ) × String :=
  (registry, if path = "/metrics" then renderMetrics registry else "")

/-- The mock measurement response of the spec — a body whose `measuregrps`
holds one group whose `measures` holds one measure with `value` 75000 — as
`json.Unmarshal` parses it into `Measures` (absent fields zero). -/
def mockMeasures : Measures :=
  { Status := 0,
    Body := { MeasureGroups :=
      [{ Date := 0, Created := 0,
         Measures := [{ Value := 75000, MType := 0 }] }] } }

/-- A second measurement response agreeing with `mockMeasures` on the value
of the first measure of the first group but differing in the status field,
the type codes, the timestamps, and carrying extra measures and groups. -/
def mockMeasuresVariant : Measures :=
  { Status := 1,
    Body := { MeasureGroups :=
      [{ Date := 100, Created := 200,
         Measures := [{ Value := 75000, MType := 1 },
                      { Value := 5, MType := 4 }] },
       { Date := 300, Created := 400,
         Measures := [{ Value := 9999, MType := 1 }] }] } }

/-- An environment with a preset access token and no app credentials. -/
def presetEnv : Env :=
  { WITHINGS_API_ACCESS_TOKEN := "token",
    WITHINGS_APP_CLIENT_ID := "",
    WITHINGS_APP_CLIENT_SECRET := "" }

/-- An environment with nothing set: every `os.Getenv` returns `""`. -/
def emptyEnv : Env :=
  { WITHINGS_API_ACCESS_TOKEN := "",
    WITHINGS_APP_CLIENT_ID := "",
    WITHINGS_APP_CLIENT_SECRET := "" }

/-! ## Helper lemmas -/

/-- The request component of `getWeightMeasurements` is `measureRequest`,
whatever the exchange outcome. -/
theorem getWeightMeasurements_fst (baseURL tok : String)
    (net : Option (ParseResult Measures)) :
    (getWeightMeasurements baseURL tok net).1 = measureRequest baseURL tok := by
  rcases net with _ | pr
  · rfl
  · unfold getWeightMeasurements
    rcases h : (parsedMeasuresOf pr).Body.MeasureGroups with _ | ⟨g, rest⟩
    · simp [h]
    · rcases hm : g.Measures with _ | ⟨x, xs⟩ <;> simp [h, hm]

/-- The weight component of `getWeightMeasurements` on a successfully
parsed response is the first-group-first-measure value divided by 1000. -/
theorem getWeightMeasurements_snd (baseURL tok : String) (m : Measures) :
    (getWeightMeasurements baseURL tok (some (.ok m))).2 =
      (firstMeasureValue m).map (fun v => v / 1000) := by
  rcases m with ⟨s, ⟨grps⟩⟩
  rcases grps with _ | ⟨g, rest⟩
  · rfl
  · rcases g with ⟨d, c, ms⟩
    rcases ms with _ | ⟨x, xs⟩ <;> rfl

/-- `afterToken` reports the flag it is given, the token it is given, and
`earlyReturn := false`. -/
theorem afterToken_fields (b : Bool) (pre : List Event)
    (baseURL tok : String) (mn : Option (ParseResult Measures)) :
    (afterToken b pre baseURL tok mn).oauthInvoked = b ∧
    (afterToken b pre baseURL tok mn).tokenPassed = some tok ∧
    (afterToken b pre baseURL tok mn).earlyReturn = false := by
  unfold afterToken
  rcases h : getWeightMeasurements baseURL tok mn with ⟨req, w⟩
  rcases w with _ | w <;> simp

/-- The events `afterToken` appends to its prefix are the measure request
and, when the run reaches serving, the register/set/start tail. -/
theorem afterToken_events (b : Bool) (pre : List Event)
    (baseURL tok : String) (mn : Option (ParseResult Measures)) :
    (afterToken b pre baseURL tok mn).events =
      pre ++ [Event.measureRequest (measureRequest baseURL tok)] ∧
      (afterToken b pre baseURL tok mn).serverStarted = false ∨
    ∃ w, (afterToken b pre baseURL tok mn).gaugeValue = some w ∧
      (afterToken b pre baseURL tok mn).serverStarted = true ∧
      (afterToken b pre baseURL tok mn).events =
        pre ++ [Event.measureRequest (measureRequest baseURL tok),
                Event.gaugeRegister, Event.gaugeSet w, Event.serverStart] := by
  unfold afterToken
  rcases h : getWeightMeasurements baseURL tok mn with ⟨req, w⟩
  have hreq : req = measureRequest baseURL tok := by
    have := getWeightMeasurements_fst baseURL tok mn
    rw [h] at this; exact this
  rcases w with _ | w
  · left; subst hreq; simp
  · right; exact ⟨w, by subst hreq; simp⟩

/-! ## Claim theorems -/

/-- C1: for every measurement response whose body contains at least one
group with at least one measure, `getWeightMeasurements` returns the value
of the first measure of the first group divided by 1000. -/
theorem getWeightMeasurements_first_of_first (baseURL tok : String)
    (m : Measures) (g : MeasureGroup) (x : MeasureItem)
    (hg : m.Body.MeasureGroups.head? = some g)
    (hx : g.Measures.head? = some x) :
    (getWeightMeasurements baseURL tok (some (.ok m))).2 =
      some (x.Value / 1000) := by
  rw [getWeightMeasurements_snd]
  rcases m with ⟨s, ⟨grps⟩⟩
  rcases grps with _ | ⟨g0, rest⟩
  · simp at hg
  · simp only [List.head?, Option.some.injEq] at hg
    rcases hms : g0.Measures with _ | ⟨x0, xs⟩
    · rw [← hg, hms] at hx; simp at hx
    · rw [← hg, hms] at hx
      simp only [List.head?, Option.some.injEq] at hx
      simp [firstMeasureValue, hms, hx]

/-- C1 witness: on the mock response with value 75000 the extracted weight
is 75. -/
theorem getWeightMeasurements_first_of_first_witness :
    mockMeasures.Body.MeasureGroups.head? =
      some { Date := 0, Created := 0,
             Measures := [{ Value := 75000, MType := 0 }] } ∧
    (getWeightMeasurements withingsAPIBaseURL "" (some (.ok mockMeasures))).2 =
      some 75 := by
  refine ⟨rfl, ?_⟩
  have h := getWeightMeasurements_first_of_first withingsAPIBaseURL ""
    mockMeasures
    { Date := 0, Created := 0, Measures := [{ Value := 75000, MType := 0 }] }
    { Value := 75000, MType := 0 } rfl rfl
  rw [h]
  norm_num

/-- C2: when the parsed response has no measurement groups — in particular
after any unmarshal failure, which leaves the zero struct — the indexing
`MeasureGroups[0]` is out of bounds and the extraction panics (`none`). -/
theorem getWeightMeasurements_empty_groups_panics (baseURL tok : String)
    (pr : ParseResult Measures)
    (h : (parsedMeasuresOf pr).Body.MeasureGroups = []) :
    (parsedMeasuresOf pr).Body.MeasureGroups.get? 0 = none ∧
    (getWeightMeasurements baseURL tok (some pr)).2 = none := by
  refine ⟨by simp [h], ?_⟩
  unfold getWeightMeasurements
  simp [h]

/-- C2 witness: a response the decoder fails to parse leaves the list
empty and the extraction reaches the crashing branch. -/
theorem getWeightMeasurements_empty_groups_panics_witness :
    (parsedMeasuresOf (.fail)).Body.MeasureGroups = [] ∧
    (parsedMeasuresOf (.fail)).Body.MeasureGroups.get? 0 = none ∧
    (getWeightMeasurements withingsAPIBaseURL "tok" (some .fail)).2 = none :=
  ⟨rfl, getWeightMeasurements_empty_groups_panics withingsAPIBaseURL "tok" .fail rfl⟩

/-- C4 counterexample: on a network error (`client.Do` returns an error
and a nil response) `oauthFlow` does not complete with an empty token —
it panics at the deferred `res.Body.Close()`, so the run has no outcome. -/
theorem oauthFlow_network_error_panics :
    (oauthFlow "" none).outcome = none ∧
    ¬ ∃ code tokStr, (oauthFlow "" none).outcome = some (code, tokStr) := by
  refine ⟨rfl, ?_⟩
  rintro ⟨c, t, h⟩
  simp [oauthFlow] at h

/-- C4 amended: when the token-endpoint body fails to parse, the decode
error is silently discarded (nothing printed) and the flow completes with
an empty access token; when the network call itself fails, the error is
printed to standard output but the function then panics on the nil
response at the deferred body close instead of completing. -/
theorem oauthFlow_error_modes (authCode : String) :
    (oauthFlow authCode (some .fail)).printedError = false ∧
    (oauthFlow authCode (some .fail)).outcome = some (authCode, "") ∧
    (oauthFlow authCode none).printedError = true ∧
    (oauthFlow authCode none).outcome = none :=
  ⟨rfl, rfl, rfl, rfl⟩

/-- C5: for every parsed token-endpoint response, the access token
returned by `oauthFlow` is exactly the `access_token` field of the parsed
body. -/
theorem oauthFlow_returns_access_token_field (authCode : String)
    (t : RequestToken) :
    (oauthFlow authCode (some (.ok t))).outcome =
      some (authCode, t.Body.AccessToken) := rfl

/-- C9: the extracted weight depends only on the value of the first
measure of the first group: two parsed responses agreeing on that field
yield the same extraction, whatever their other fields and whatever the
tokens and base URLs. -/
theorem getWeightMeasurements_depends_only_on_first_value
    (b1 b2 t1 t2 : String) (m1 m2 : Measures)
    (h : firstMeasureValue m1 = firstMeasureValue m2) :
    (getWeightMeasurements b1 t1 (some (.ok m1))).2 =
    (getWeightMeasurements b2 t2 (some (.ok m2))).2 := by
  rw [getWeightMeasurements_snd, getWeightMeasurements_snd, h]

/-- C9 witness: two responses differing in status, type codes, timestamps
and extra groups/measures but agreeing on the first value extract the same
weight. -/
theorem getWeightMeasurements_depends_only_on_first_value_witness :
    firstMeasureValue mockMeasures = firstMeasureValue mockMeasuresVariant ∧
    mockMeasures ≠ mockMeasuresVariant ∧
    (getWeightMeasurements withingsAPIBaseURL "t1" (some (.ok mockMeasures))).2 =
    (getWeightMeasurements "http://other" "t2" (some (.ok mockMeasuresVariant))).2 := by
  refine ⟨rfl, by decide, ?_⟩
  exact getWeightMeasurements_depends_only_on_first_value
    withingsAPIBaseURL "http://other" "t1" "t2" mockMeasures mockMeasuresVariant rfl

/-- C10: for every base URL, token and exchange outcome, the single POST
request `getWeightMeasurements` builds has the fixed URL suffix — with the
literal text `integer` as the `lastupdate` value — and the header
`Authorization: Bearer` followed by the token. -/
theorem getWeightMeasurements_request_shape (baseURL tok : String)
    (net : Option (ParseResult Measures)) :
    (getWeightMeasurements baseURL tok net).1 =
      { method := "POST",
        url := baseURL ++
          "/measure?action=getmeas&meastypes=1&category=1&lastupdate=integer",
        headers := [("Authorization", "Bearer " ++ tok)] } := by
  rw [getWeightMeasurements_fst]
  unfold measureRequest
  have h : "/measure?action=getmeas&meastypes=" ++
      toString weightMeasurementAPITypes ++ "&category=1&lastupdate=integer" =
      "/measure?action=getmeas&meastypes=1&category=1&lastupdate=integer" := by
    decide
  rw [h]

/-- Helper: a run through `afterToken` that reaches serving sets the gauge
exactly once, right before the server start, provided its event prefix
contains no gauge mutation. -/
theorem afterToken_serving (b : Bool) (pre : List Event)
    (baseURL tok : String) (mn : Option (ParseResult Measures))
    (hpre : pre.filter isGaugeSetEvent = [])
    (h : (afterToken b pre baseURL tok mn).serverStarted = true) :
    ∃ w, (afterToken b pre baseURL tok mn).gaugeValue = some w ∧
      (afterToken b pre baseURL tok mn).events.filter isGaugeSetEvent =
        [Event.gaugeSet w] ∧
      ∃ pre2, (afterToken b pre baseURL tok mn).events =
          pre2 ++ [Event.gaugeRegister, Event.gaugeSet w, Event.serverStart] ∧
        pre2.filter isGaugeSetEvent = [] := by
  rcases afterToken_events b pre baseURL tok mn with ⟨he, hs⟩ | ⟨w, hw, hs, he⟩
  · rw [h] at hs; exact absurd hs (by simp)
  · refine ⟨w, hw, ?_,
      pre ++ [Event.measureRequest (measureRequest baseURL tok)], ?_, ?_⟩
    · rw [he]; simp [List.filter_append, hpre, isGaugeSetEvent]
    · rw [he]; simp
    · simp [List.filter_append, hpre, isGaugeSetEvent]

/-- C3: with a preset non-empty `WITHINGS_API_ACCESS_TOKEN`, `main` never
invokes `oauthFlow`, issues no token-endpoint request, and the preset
token is exactly the one passed to `getWeightMeasurements`. -/
theorem mainRun_skips_oauth_with_preset_token (env : Env) (authCode : String)
    (oauthNet : Option (ParseResult RequestToken))
    (measNet : Option (ParseResult Measures))
    (h : env.WITHINGS_API_ACCESS_TOKEN ≠ "") :
    (mainRun env authCode oauthNet measNet).oauthInvoked = false ∧
    Event.tokenRequest ∉ (mainRun env authCode oauthNet measNet).events ∧
    (mainRun env authCode oauthNet measNet).tokenPassed =
      some env.WITHINGS_API_ACCESS_TOKEN := by
  unfold mainRun
  rw [if_neg h]
  refine ⟨(afterToken_fields _ _ _ _ _).1, ?_, (afterToken_fields _ _ _ _ _).2.1⟩
  rcases afterToken_events false [] withingsAPIBaseURL
      env.WITHINGS_API_ACCESS_TOKEN measNet with ⟨he, _⟩ | ⟨w, _, _, he⟩ <;>
    rw [he] <;> simp

/-- C3 witness: a concrete environment with a preset token skips the
authorization flow. -/
theorem mainRun_skips_oauth_with_preset_token_witness :
    presetEnv.WITHINGS_API_ACCESS_TOKEN ≠ "" ∧
    ((mainRun presetEnv "" none (some (.ok mockMeasures))).oauthInvoked = false ∧
     Event.tokenRequest ∉ (mainRun presetEnv "" none (some (.ok mockMeasures))).events ∧
     (mainRun presetEnv "" none (some (.ok mockMeasures))).tokenPassed =
       some presetEnv.WITHINGS_API_ACCESS_TOKEN) :=
  ⟨by decide, mainRun_skips_oauth_with_preset_token presetEnv "" none
    (some (.ok mockMeasures)) (by decide)⟩

/-- C6: with no preset token and a missing client id or secret, `main`
prints the setup message and returns early and cleanly — no outbound
request, no gauge, no listener; and this credentials check is the only
condition producing the early return. -/
theorem mainRun_missing_credentials_early_return (env : Env)
    (authCode : String) (oauthNet : Option (ParseResult RequestToken))
    (measNet : Option (ParseResult Measures))
    (h1 : env.WITHINGS_API_ACCESS_TOKEN = "")
    (h2 : env.WITHINGS_APP_CLIENT_ID = "" ∨
          env.WITHINGS_APP_CLIENT_SECRET = "") :
    mainRun env authCode oauthNet measNet =
      { oauthInvoked := false, events := [.printSetupMsg],
        tokenPassed := none, gaugeValue := none,
        serverStarted := false, panicked := false, earlyReturn := true } ∧
    (∀ env2 a2 o2 m2, (mainRun env2 a2 o2 m2).earlyReturn = true →
      env2.WITHINGS_API_ACCESS_TOKEN = "" ∧
      (env2.WITHINGS_APP_CLIENT_ID = "" ∨
       env2.WITHINGS_APP_CLIENT_SECRET = "")) := by
  constructor
  · unfold mainRun
    rw [if_pos h1, if_pos h2]
  · intro env2 a2 o2 m2 he
    by_cases k1 : env2.WITHINGS_API_ACCESS_TOKEN = ""
    · by_cases k2 : env2.WITHINGS_APP_CLIENT_ID = "" ∨
          env2.WITHINGS_APP_CLIENT_SECRET = ""
      · exact ⟨k1, k2⟩
      · exfalso
        unfold mainRun at he
        rw [if_pos k1, if_neg k2] at he
        rcases ho : (oauthFlow a2 o2).outcome with _ | ⟨⟨c, tok⟩⟩ <;>
          rw [ho] at he
        · simp at he
        · rw [(afterToken_fields true [Event.tokenRequest]
            withingsAPIBaseURL tok m2).2.2] at he
          exact absurd he (by simp)
    · exfalso
      unfold mainRun at he
      rw [if_neg k1] at he
      rw [(afterToken_fields false [] withingsAPIBaseURL
        env2.WITHINGS_API_ACCESS_TOKEN m2).2.2] at he
      exact absurd he (by simp)

/-- C6 witness: an entirely empty environment returns early with only the
setup message. -/
theorem mainRun_missing_credentials_early_return_witness :
    emptyEnv.WITHINGS_API_ACCESS_TOKEN = "" ∧
    (emptyEnv.WITHINGS_APP_CLIENT_ID = "" ∨
     emptyEnv.WITHINGS_APP_CLIENT_SECRET = "") ∧
    mainRun emptyEnv "" none none =
      { oauthInvoked := false, events := [.printSetupMsg],
        tokenPassed := none, gaugeValue := none,
        serverStarted := false, panicked := false, earlyReturn := true } :=
  ⟨rfl, Or.inl rfl,
    (mainRun_missing_credentials_early_return emptyEnv "" none none rfl
      (Or.inl rfl)).1⟩

/-- C8: every run reaching the serving phase mutates the gauge exactly
once — setting it to the extracted weight, just before the server start —
and a step of the (spec-modelled) serving loop never changes the
registry. -/
theorem mainRun_gauge_set_once_before_serving (env : Env) (authCode : String)
    (oauthNet : Option (ParseResult RequestToken))
    (measNet : Option (ParseResult Measures))
    (h : (mainRun env authCode oauthNet measNet).serverStarted = true) :
    (∃ w, (mainRun env authCode oauthNet measNet).gaugeValue = some w ∧
      (mainRun env authCode oauthNet measNet).events.filter isGaugeSetEvent =
        [Event.gaugeSet w] ∧
      ∃ pre, (mainRun env authCode oauthNet measNet).events =
          pre ++ [Event.gaugeRegister, Event.gaugeSet w, Event.serverStart] ∧
        pre.filter isGaugeSetEvent = []) ∧
    (∀ registry path, (serveStep registry path).1 = registry) := by
  refine ⟨?_, fun registry path => rfl⟩
  unfold mainRun at h ⊢
  by_cases k1 : env.WITHINGS_API_ACCESS_TOKEN = ""
  · rw [if_pos k1] at h ⊢
    by_cases k2 : env.WITHINGS_APP_CLIENT_ID = "" ∨
        env.WITHINGS_APP_CLIENT_SECRET = ""
    · rw [if_pos k2] at h
      simp at h
    · rw [if_neg k2] at h ⊢
      rcases ho : (oauthFlow authCode oauthNet).outcome with _ | ⟨⟨c, tok⟩⟩
      · rw [ho] at h
        simp at h
      · rw [ho] at h
        exact afterToken_serving true [Event.tokenRequest]
          withingsAPIBaseURL tok measNet rfl h
  · rw [if_neg k1] at h ⊢
    exact afterToken_serving false [] withingsAPIBaseURL
      env.WITHINGS_API_ACCESS_TOKEN measNet rfl h

/-- C8 witness: a concrete run with a preset token and a parsed response
reaches serving and sets the gauge exactly once. -/
theorem mainRun_gauge_set_once_before_serving_witness :
    (mainRun presetEnv "code" none
      (some (.ok mockMeasuresVariant))).serverStarted = true ∧
    ((∃ w, (mainRun presetEnv "code" none
        (some (.ok mockMeasuresVariant))).gaugeValue = some w ∧
      (mainRun presetEnv "code" none
        (some (.ok mockMeasuresVariant))).events.filter isGaugeSetEvent =
        [Event.gaugeSet w] ∧
      ∃ pre, (mainRun presetEnv "code" none
          (some (.ok mockMeasuresVariant))).events =
          pre ++ [Event.gaugeRegister, Event.gaugeSet w, Event.serverStart] ∧
        pre.filter isGaugeSetEvent = []) ∧
    (∀ registry path, (serveStep registry path).1 = registry)) :=
  ⟨by decide, mainRun_gauge_set_once_before_serving presetEnv "code" none
    (some (.ok mockMeasuresVariant)) (by decide)⟩

/-- C7: once the serving phase is reached for the mock response, the
registry holds exactly the one gauge series `withings_current_weight` with
the extracted weight 75, and a (spec-modelled) GET of `/metrics` returns
the text `withings_current_weight 75` followed by a newline. -/
theorem metrics_page_for_mock :
    (mainRun presetEnv "" none (some (.ok mockMeasures))).serverStarted = true ∧
    registryOf (mainRun presetEnv "" none (some (.ok mockMeasures))) =
      [("withings_current_weight", (75 : ℚ))] ∧
    (serveStep (registryOf (mainRun presetEnv "" none (some (.ok mockMeasures))))
        "/metrics").2 = "withings_current_weight 75\n" := by
  have hq : ((75000 : ℚ) / 1000) = 75 := by norm_num
  have hw : (mainRun presetEnv "" none (some (.ok mockMeasures))).gaugeValue =
      some 75 := by
    simp [mainRun, presetEnv, afterToken, getWeightMeasurements, mockMeasures,
      parsedMeasuresOf, hq]
  have hr : registryOf (mainRun presetEnv "" none (some (.ok mockMeasures))) =
      [("withings_current_weight", (75 : ℚ))] := by
    simp [registryOf, hw]
  refine ⟨by decide, hr, ?_⟩
  rw [hr]
  simp only [serveStep, renderMetrics, ratRender, if_pos, String.join]
  norm_num
  rfl
